import Mathlib

/-! Verification development for the scaffolding-inspection realtime-audio
session orchestrator (`src/index.js`, `src/equipment.js`, `src/validation.js`,
`src/database.js`): a shallow embedding of its JSON argument parsing, the
equipment registry, inspection-data validation, tool dispatch, and the
per-call session state machine, together with theorems about the spec-level
properties. -/

namespace AIRealtime

/-- JSON values as produced by parsing a tool call's argument string
(`JSON.parse` in the source).  Numbers keep their source lexeme: their
numeric value is never consulted by the program paths modelled here. -/
inductive JVal where
  | null
  | boolean (b : Bool)
  | num (lit : String)
  | str (s : String)
  | arr (elems : List JVal)
  | obj (fields : List (String × JVal))
deriving Repr, BEq, Inhabited

/-- JSON insignificant whitespace (space, tab, line feed, carriage return),
exactly the set `JSON.parse` skips between tokens. -/
def isJsonWs (c : Char) : Bool :=
  c = ' ' || c = '\t' || c = '\n' || c = '\r'

/-- Drop leading JSON whitespace. -/
def skipWs : List Char → List Char
  | [] => []
  | c :: r => if isJsonWs c then skipWs r else c :: r

/-- Hexadecimal digit value, for `\uXXXX` string escapes. -/
def hexVal (c : Char) : Option Nat :=
  if '0' ≤ c ∧ c ≤ '9' then some (c.toNat - '0'.toNat)
  else if 'a' ≤ c ∧ c ≤ 'f' then some (c.toNat - 'a'.toNat + 10)
  else if 'A' ≤ c ∧ c ≤ 'F' then some (c.toNat - 'A'.toNat + 10)
  else none

/-- Parse the body of a JSON string (opening quote already consumed),
accepting the escapes `JSON.parse` accepts and rejecting unescaped control
characters, as ECMA-404 requires. -/
def parseStringBody : Nat → List Char → List Char → Option (String × List Char)
  | 0, _, _ => none
  | _ + 1, [], _ => none
  | fuel + 1, c :: rest, acc =>
    if c = '"' then some (String.mk acc.reverse, rest)
    else if c = '\\' then
      match rest with
      | [] => none
      | e :: rest2 =>
        if e = '"' then parseStringBody fuel rest2 ('"' :: acc)
        else if e = '\\' then parseStringBody fuel rest2 ('\\' :: acc)
        else if e = '/' then parseStringBody fuel rest2 ('/' :: acc)
        else if e = 'b' then parseStringBody fuel rest2 (Char.ofNat 8 :: acc)
        else if e = 'f' then parseStringBody fuel rest2 (Char.ofNat 12 :: acc)
        else if e = 'n' then parseStringBody fuel rest2 ('\n' :: acc)
        else if e = 'r' then parseStringBody fuel rest2 ('\r' :: acc)
        else if e = 't' then parseStringBody fuel rest2 ('\t' :: acc)
        else if e = 'u' then
          match rest2 with
          | h1 :: h2 :: h3 :: h4 :: rest3 =>
            match hexVal h1, hexVal h2, hexVal h3, hexVal h4 with
            | some a, some b, some c2, some d =>
              parseStringBody fuel rest3
                (Char.ofNat (((a * 16 + b) * 16 + c2) * 16 + d) :: acc)
            | _, _, _, _ => none
          | _ => none
        else none
    else if c.toNat < 32 then none
    else parseStringBody fuel rest (c :: acc)

/-- Take a maximal run of decimal digits. -/
def spanDigits (cs : List Char) : List Char × List Char :=
  cs.span (fun c => c.isDigit)

/-- Optional fraction part of a JSON number. -/
def parseFrac (acc : List Char) (cs : List Char) : Option (List Char × List Char) :=
  match cs with
  | '.' :: r =>
    let (ds, r2) := spanDigits r
    if ds = [] then none else some (acc ++ '.' :: ds, r2)
  | _ => some (acc, cs)

/-- Optional exponent part of a JSON number. -/
def parseExp (acc : List Char) (cs : List Char) : Option (List Char × List Char) :=
  match cs with
  | [] => some (acc, [])
  | c :: r =>
    if c = 'e' ∨ c = 'E' then
      match r with
      | [] => none
      | s :: r2 =>
        if s = '+' ∨ s = '-' then
          let (ds, r3) := spanDigits r2
          if ds = [] then none else some (acc ++ c :: s :: ds, r3)
        else
          let (ds, r2') := spanDigits r
          if ds = [] then none else some (acc ++ c :: ds, r2')
    else some (acc, cs)

/-- Parse a JSON number per the ECMA-404 grammar
`-? (0 | [1-9][0-9]*) frac? exp?`, returning its lexeme. -/
def parseNumber (cs : List Char) : Option (String × List Char) :=
  let (sign, cs1) : List Char × List Char :=
    match cs with
    | '-' :: r => (['-'], r)
    | _ => ([], cs)
  match cs1 with
  | [] => none
  | c :: r =>
    if c = '0' then
      match parseFrac (sign ++ ['0']) r with
      | none => none
      | some (acc2, r2) =>
        match parseExp acc2 r2 with
        | none => none
        | some (acc3, r3) => some (String.mk acc3, r3)
    else if c.isDigit then
      let (ds, r1) := spanDigits r
      match parseFrac (sign ++ c :: ds) r1 with
      | none => none
      | some (acc2, r2) =>
        match parseExp acc2 r2 with
        | none => none
        | some (acc3, r3) => some (String.mk acc3, r3)
    else none

mutual

/-- Parse one JSON value starting at the first non-whitespace character,
returning it together with the unconsumed rest of the input. -/
def parseJVal : Nat → List Char → Option (JVal × List Char)
  | 0, _ => none
  | fuel + 1, cs =>
    match skipWs cs with
    | [] => none
    | c :: rest =>
      if c = '"' then
        match parseStringBody (rest.length + 1) rest [] with
        | some (s, r) => some (.str s, r)
        | none => none
      else if c = Char.ofNat 123 then
        match skipWs rest with
        | c2 :: r2 =>
          if c2 = Char.ofNat 125 then some (.obj [], r2)
          else parseObjFields fuel (c2 :: r2) []
        | [] => none
      else if c = '[' then
        match skipWs rest with
        | c2 :: r2 =>
          if c2 = ']' then some (.arr [], r2)
          else parseArrElems fuel (c2 :: r2) []
        | [] => none
      else
        match c :: rest with
        | 't' :: 'r' :: 'u' :: 'e' :: r => some (.boolean true, r)
        | 'f' :: 'a' :: 'l' :: 's' :: 'e' :: r => some (.boolean false, r)
        | 'n' :: 'u' :: 'l' :: 'l' :: r => some (.null, r)
        | cs2 =>
          match parseNumber cs2 with
          | some (lit, r) => some (.num lit, r)
          | none => none

/-- Parse the elements of a non-empty JSON array (opening bracket consumed,
next value expected). -/
def parseArrElems : Nat → List Char → List JVal → Option (JVal × List Char)
  | 0, _, _ => none
  | fuel + 1, cs, acc =>
    match parseJVal fuel cs with
    | none => none
    | some (v, r) =>
      match skipWs r with
      | ',' :: r2 => parseArrElems fuel r2 (v :: acc)
      | c :: r2 => if c = ']' then some (.arr (v :: acc).reverse, r2) else none
      | [] => none

/-- Parse the members of a non-empty JSON object (opening brace consumed,
next key expected). -/
def parseObjFields : Nat → List Char → List (String × JVal) → Option (JVal × List Char)
  | 0, _, _ => none
  | fuel + 1, cs, acc =>
    match skipWs cs with
    | '"' :: r =>
      match parseStringBody (r.length + 1) r [] with
      | none => none
      | some (k, r1) =>
        match skipWs r1 with
        | ':' :: r3 =>
          match parseJVal fuel r3 with
          | none => none
          | some (v, r4) =>
            match skipWs r4 with
            | ',' :: r6 => parseObjFields fuel r6 ((k, v) :: acc)
            | c :: r6 =>
              if c = Char.ofNat 125 then some (.obj ((k, v) :: acc).reverse, r6)
              else none
            | [] => none
        | _ => none
    | _ => none

end

/-- Model of `JSON.parse` on a tool call's argument string: one JSON value,
optionally surrounded by whitespace, nothing else.  `none` models the
`SyntaxError` thrown by `JSON.parse` on unparseable input. -/
def jsonParse (s : String) : Option JVal :=
  match parseJVal (s.length + 16) s.toList with
  | some (v, rest) => if skipWs rest = [] then some v else none
  | none => none

example : jsonParse "\x7b\"reason\":\"done\"\x7d" =
    some (.obj [("reason", .str "done")]) := by rfl
example : jsonParse "\x7b" = none := by rfl
example : jsonParse " [1, true, null, \"a\\n\", -0.5e+2] " =
    some (.arr [.num "1", .boolean true, .null, .str "a\n", .num "-0.5e+2"]) := by rfl
example : jsonParse "01" = none := by rfl

/-- Last-occurrence object-field lookup: `JSON.parse` keeps the last
duplicate key, and property access then sees that value. -/
def jField (v : JVal) (k : String) : Option JVal :=
  match v with
  | .obj fields => (fields.reverse.lookup k)
  | _ => none

/-- Read an object field as a string; `none` both when the field is absent
and when it holds a non-string value.  The built-in tool handlers modelled
here are only exercised on string-valued fields, where this is exact. -/
def jGetStr (v : JVal) (k : String) : Option String :=
  match jField v k with
  | some (.str s) => some s
  | _ => none

/-- One entry of the static equipment registry (`src/equipment.js`). -/
structure Equipment where
  id : String
  etype : String
  location : String
  height : String
  last_inspection : String
  status : String
  notes : String
deriving Repr, BEq, DecidableEq, Inhabited

/-- The fifteen-entry `EQUIPMENT_REGISTRY` constant of `src/equipment.js`. -/
def EQUIPMENT_REGISTRY : List Equipment :=
  [ ⟨"SCAFF-001", "Mobile Scaffold Tower", "Warehouse A - Bay 3", "6m",
      "2024-09-15", "active", "Standard aluminum tower"⟩,
    ⟨"SCAFF-002", "Mobile Scaffold Tower", "Warehouse A - Bay 5", "8m",
      "2024-09-20", "active", "Heavy duty model"⟩,
    ⟨"SCAFF-003", "Fixed Frame Scaffold", "Building B - North Wall", "12m",
      "2024-08-30", "active", "Multi-level setup"⟩,
    ⟨"SCAFF-004", "Mobile Scaffold Tower", "Warehouse C - Loading Dock", "4m",
      "2024-09-10", "active", "Compact model for low clearance"⟩,
    ⟨"SCAFF-005", "Suspended Scaffold", "Building D - East Facade", "15m",
      "2024-09-05", "active", "Requires daily inspection"⟩,
    ⟨"SCAFF-006", "Fixed Frame Scaffold", "Manufacturing Floor 1", "10m",
      "2024-09-18", "active", "Production area access"⟩,
    ⟨"SCAFF-007", "Mobile Scaffold Tower", "Warehouse A - Bay 1", "6m",
      "2024-09-22", "active", "Recently serviced"⟩,
    ⟨"SCAFF-008", "Rolling Scaffold", "Building E - Main Hall", "8m",
      "2024-08-25", "maintenance", "Under maintenance - wheels being replaced"⟩,
    ⟨"SCAFF-009", "Fixed Frame Scaffold", "Warehouse B - Storage Area", "14m",
      "2024-09-12", "active", "High-reach configuration"⟩,
    ⟨"SCAFF-010", "Mobile Scaffold Tower", "Building C - Workshop", "5m",
      "2024-09-25", "active", "Workshop maintenance unit"⟩,
    ⟨"SCAFF-011", "Cantilever Scaffold", "Building F - Exterior", "20m",
      "2024-09-01", "active", "Special configuration for facade work"⟩,
    ⟨"SCAFF-012", "Mobile Scaffold Tower", "Warehouse D - Receiving", "6m",
      "2024-09-19", "active", "Standard configuration"⟩,
    ⟨"SCAFF-013", "Fixed Frame Scaffold", "Manufacturing Floor 2", "12m",
      "2024-08-28", "active", "Permanent installation"⟩,
    ⟨"SCAFF-014", "Mobile Scaffold Tower", "Building G - Maintenance Shop", "7m",
      "2024-09-24", "active", "Maintenance department use"⟩,
    ⟨"SCAFF-015", "Suspended Scaffold", "Building H - South Facade", "18m",
      "2024-09-08", "active", "Window cleaning and maintenance"⟩ ]

/-- JavaScript whitespace class used by `String.prototype.trim` (the common
members; the exotic Unicode space separators do not occur in this system). -/
def isJsWs (c : Char) : Bool :=
  c = ' ' || c = '\t' || c = '\n' || c = '\r' ||
    c = Char.ofNat 11 || c = Char.ofNat 12 || c = Char.ofNat 160

/-- `String.prototype.trim`: strip leading and trailing whitespace. -/
def jsTrim (s : String) : String :=
  String.mk (((s.data.dropWhile isJsWs).reverse.dropWhile isJsWs).reverse)

/-- `String.prototype.toUpperCase` (ASCII, which covers every string this
system compares case-insensitively). -/
def jsToUpper (s : String) : String :=
  String.mk (s.data.map Char.toUpper)

/-- `String.prototype.toLowerCase` (ASCII). -/
def jsToLower (s : String) : String :=
  String.mk (s.data.map Char.toLower)

/-- Does the list start with the given pattern? -/
def startsWithSeq : List Char → List Char → Bool
  | _, [] => true
  | [], _ :: _ => false
  | c :: l, p :: ps => c = p && startsWithSeq l ps

/-- Does the pattern occur anywhere in the list? -/
def containsSeq (p : List Char) : List Char → Bool
  | [] => startsWithSeq [] p
  | c :: rest => startsWithSeq (c :: rest) p || containsSeq p rest

/-- JavaScript `String.prototype.includes`. -/
def strIncludes (s sub : String) : Bool :=
  containsSeq sub.data s.data

/-- `getEquipmentById` of `src/equipment.js`: trims and upper-cases the
requested id, then finds the first registry entry whose upper-cased id
matches. -/
def getEquipmentById (id : String) : Option Equipment :=
  let normalizedId := jsToUpper (jsTrim id)
  EQUIPMENT_REGISTRY.find? (fun eq => jsToUpper eq.id == normalizedId)

/-- `searchEquipmentByLocation` of `src/equipment.js`: case-insensitive
substring match on the location field. -/
def searchEquipmentByLocation (locationQuery : String) : List Equipment :=
  let query := jsToLower locationQuery
  EQUIPMENT_REGISTRY.filter (fun eq => strIncludes (jsToLower eq.location) query)

example : getEquipmentById "scaff-001 " = EQUIPMENT_REGISTRY.head? := by rfl
example : getEquipmentById " " = none := by rfl
example : (searchEquipmentByLocation "warehouse a").length = 3 := by rfl

/-- The inspection-payload fields read by `validateInspectionData` and
`saveInspectionData`.  Each field is `none` when the corresponding property
is absent from the submitted JSON object (JavaScript `undefined`). -/
structure InspectionData where
  equipment_id : Option String := none
  inspector_name : Option String := none
  location : Option String := none
  inspection_result : Option String := none
  comments : Option String := none
deriving Repr, BEq, DecidableEq, Inhabited

/-- The JavaScript test `!field || field.trim() === ''` on an optional
string field: absent, empty, or whitespace-only. -/
def fieldBlank : Option String → Bool
  | none => true
  | some s => jsTrim s == ""

/-- Result of `validateInspectionData` (`src/index.js` lines 286-316 and
identically `src/validation.js`). -/
structure ValidationResult where
  valid : Bool
  errors : List String
deriving Repr, BEq, DecidableEq, Inhabited

/-- Errors pushed by the equipment-id check of `validateInspectionData`:
required when blank, otherwise a registry cross-reference failure. -/
def equipmentIdErrors (d : InspectionData) : List String :=
  if fieldBlank d.equipment_id then ["equipment_id is required"]
  else match getEquipmentById (d.equipment_id.getD "") with
    | none => ["equipment_id \"" ++ d.equipment_id.getD "" ++ "\" not found in registry"]
    | some _ => []

/-- Errors pushed by the inspector-name presence check. -/
def inspectorNameErrors (d : InspectionData) : List String :=
  if fieldBlank d.inspector_name then ["inspector_name is required"] else []

/-- Errors pushed by the location presence check. -/
def locationErrors (d : InspectionData) : List String :=
  if fieldBlank d.location then ["location is required"] else []

/-- Errors pushed by the inspection-result check: required when absent or
empty, otherwise it must be exactly PASS or FAIL. -/
def inspectionResultErrors (d : InspectionData) : List String :=
  match d.inspection_result with
  | none => ["inspection_result is required"]
  | some r =>
    if r = "" then ["inspection_result is required"]
    else if r ≠ "PASS" ∧ r ≠ "FAIL" then
      ["inspection_result must be exactly \"PASS\" or \"FAIL\""]
    else []

/-- `validateInspectionData`: collects an error for every failed check, in
source push order (equipment id, inspector name, location, inspection
result); `valid` iff no errors were collected. -/
def validateInspectionData (data : InspectionData) : ValidationResult :=
  let errors := equipmentIdErrors data ++ inspectorNameErrors data ++
    locationErrors data ++ inspectionResultErrors data
  { valid := errors.isEmpty, errors := errors }

/-- Project the parsed argument object onto the inspection-payload fields
(string-valued properties; an absent property maps to `none`). -/
def toInspectionData (args : JVal) : InspectionData :=
  { equipment_id := jGetStr args "equipment_id"
    inspector_name := jGetStr args "inspector_name"
    location := jGetStr args "location"
    inspection_result := jGetStr args "inspection_result"
    comments := jGetStr args "comments" }

/-- Result object returned by a built-in tool handler in `callMCPTool`.
Fields the JavaScript object omits are `none`. -/
structure ToolResult where
  success : Bool
  error : Option String := none
  message : Option String := none
  details : Option (List String) := none
  data_ : Option InspectionData := none
  reason : Option String := none
  caller_name : Option String := none
  equipmentOne : Option Equipment := none
  equipmentMany : Option (List Equipment) := none
  count : Option Nat := none
deriving Repr, BEq, DecidableEq, Inhabited

/-- The read-only context object built for each dispatch from the per-call
state (`src/index.js` lines 549-554). -/
structure ToolContext where
  inspectionSubmitted : Bool
  inspectionData : Option JVal := none
  streamSid : Option String := none
  phoneNumber : Option String := none
deriving Repr, BEq, Inhabited

/-- A database write performed by a tool handler (the persistence
collaborator calls inside `callMCPTool`). -/
inductive DbWrite where
  | saveInspection (streamSid : Option String) (d : InspectionData)
  | saveCaller (phone name : String)
deriving Repr, BEq, Inhabited

/-- Outcome of `callMCPTool`: a built-in handler's result object, a raw
external (MCP-provider) tool result identified by the provider it was routed
to and the tool name it was invoked with, or a thrown JavaScript error. -/
inductive CallOutcome where
  | ok (r : ToolResult)
  | external (server tool : String)
  | thrown (msg : String)
deriving Repr, BEq, Inhabited

/-- Split a character list at every occurrence of the separator, JavaScript
`String.prototype.split` with a one-character separator.  Always returns a
non-empty list of pieces. -/
def splitCharsOn (sep : Char) : List Char → List (List Char)
  | [] => [[]]
  | c :: rest =>
    match splitCharsOn sep rest with
    | [] => [[]]
    | h :: t => if c = sep then [] :: h :: t else (c :: h) :: t

/-- `toolName.split('_')` as a list of strings. -/
def splitUnderscore (s : String) : List String :=
  (splitCharsOn '_' s.data).map String.mk

example : splitUnderscore "foo_bar_baz" = ["foo", "bar", "baz"] := by rfl
example : splitUnderscore "plain" = ["plain"] := by rfl
example : splitUnderscore "" = [""] := by rfl

/-- Join character lists with a separator, JavaScript
`Array.prototype.join` with a one-character separator. -/
def joinWith (c : Char) : List (List Char) → List Char
  | [] => []
  | [x] => x
  | x :: y :: rest => x ++ c :: joinWith c (y :: rest)

/-- `toolNameParts.join('_')`. -/
def joinUnderscore (pieces : List String) : String :=
  String.mk (joinWith '_' (pieces.map String.data))

example : joinUnderscore ["bar", "baz"] = "bar_baz" := by rfl

/-- The connected MCP providers: provider name paired with the tool names in
its discovered catalog (the `mcpClients` map; read-only after startup). -/
abbrev McpClients := List (String × List String)

/-- `Map.prototype.get` on the provider map. -/
def mcpLookup (clients : McpClients) (server : String) : Option (List String) :=
  (clients : List (String × List String)).lookup server

/-- The tool names advertised to the backend by `getMCPTools`
(`src/index.js` lines 166-283): every provider tool prefixed with its
provider name and an underscore, followed by the five built-in tools, in
source push order. -/
def getMCPToolNames (clients : McpClients) : List String :=
  ((clients : List (String × List String)).map
      (fun sc => sc.2.map (fun t => sc.1 ++ "_" ++ t))).flatten ++
    ["get_equipment_info", "search_equipment_by_location", "save_caller_name",
     "submit_inspection_data", "end_call"]

/-- `callMCPTool` (`src/index.js` lines 318-458): the five built-in handlers
checked by name in source order, then the external-provider dispatch that
splits the qualified name at its first underscore.  Also returns the
database writes the handler performed.  The model's persistence collaborator
does not fail, so the handlers' database-error branches are not taken. -/
def callMCPTool (clients : McpClients) (toolName : String) (args : JVal)
    (context : ToolContext) : CallOutcome × List DbWrite :=
  if toolName = "save_caller_name" then
    match context.phoneNumber with
    | none =>
      (.ok { success := false, error := some "No phone number available",
             message := some "Cannot save caller name without phone number" }, [])
    | some phone =>
      match jGetStr args "caller_name" with
      | none =>
        (.ok { success := false, error := some "Caller name is required",
               message := some "Please provide a valid name" }, [])
      | some cn =>
        if cn = "" ∨ jsTrim cn = "" then
          (.ok { success := false, error := some "Caller name is required",
                 message := some "Please provide a valid name" }, [])
        else
          (.ok { success := true, message := some "Name saved successfully",
                 caller_name := some (jsTrim cn) }, [.saveCaller phone (jsTrim cn)])
  else if toolName = "get_equipment_info" then
    match jGetStr args "equipment_id" with
    | none =>
      -- JavaScript throws a TypeError calling `.trim()` on a missing field.
      (.thrown "TypeError: equipment_id is not a string", [])
    | some eid =>
      match getEquipmentById eid with
      | none =>
        (.ok { success := false, error := some "Equipment not found",
               message := some ("Equipment ID \"" ++ eid ++
                 "\" not found in registry. Please verify the equipment ID.") }, [])
      | some equipment =>
        (.ok { success := true, equipmentOne := some equipment,
               message := some ("Found equipment: " ++ equipment.etype ++ " at " ++
                 equipment.location) }, [])
  else if toolName = "search_equipment_by_location" then
    match jGetStr args "location" with
    | none => (.thrown "TypeError: location is not a string", [])
    | some loc =>
      let results := searchEquipmentByLocation loc
      if results.length = 0 then
        (.ok { success := false,
               message := some ("No equipment found at location \"" ++ loc ++ "\"") }, [])
      else
        (.ok { success := true, equipmentMany := some results,
               count := some results.length,
               message := some ("Found " ++ toString results.length ++
                 " equipment item(s) at \"" ++ loc ++ "\"") }, [])
  else if toolName = "submit_inspection_data" then
    let d := toInspectionData args
    let validation := validateInspectionData d
    if !validation.valid then
      (.ok { success := false, error := some "Validation failed",
             details := some validation.errors,
             message := some ("Please provide all required fields: " ++
               String.intercalate ", " validation.errors) }, [])
    else
      (.ok { success := true,
             message := some "Inspection data successfully recorded",
             data_ := some d }, [.saveInspection context.streamSid d])
  else if toolName = "end_call" then
    if !context.inspectionSubmitted then
      (.ok { success := false,
             error := some "Cannot end call without submitting inspection data first",
             message := some "You must call submit_inspection_data before ending the call" }, [])
    else
      (.ok { success := true, message := some "Call will be ended",
             reason := some (match jGetStr args "reason" with
               | some r => if r = "" then "unknown" else r
               | none => "unknown") }, [])
  else
    match splitUnderscore toolName with
    | [] => (.thrown "MCP server '' not found", [])
    | serverName :: toolNameParts =>
      let actualToolName := joinUnderscore toolNameParts
      match mcpLookup clients serverName with
      | none => (.thrown ("MCP server '" ++ serverName ++ "' not found"), [])
      | some _ => (.external serverName actualToolName, [])

/-- `MESSAGE_SEQUENCE_DELAY_MS` (default 50): the configured settle delay
inserted between ordered backend-bound messages. -/
def MESSAGE_SEQUENCE_DELAY_MS : Nat := 50

/-- `GREETING_DELAY_OFFSET_MS` (default 100). -/
def GREETING_DELAY_OFFSET_MS : Nat := 100

/-- The serialized `output` of a `function_call_output` item: a handler's
result object, an external provider's raw result, or a thrown error coerced
to the structured shape `\x7b error: message \x7d`. -/
inductive FnOutput where
  | result (r : ToolResult)
  | externalResult (server tool : String)
  | errorMsg (msg : String)
deriving Repr, BEq, Inhabited

/-- Backend-bound (OpenAI socket) messages the orchestrator sends. -/
inductive OpenAIMsg where
  | sessionUpdate
  | functionCallOutput (call_id : String) (output : FnOutput)
  | responseCreate
  | responseCancel
  | inputAudioBufferAppend (audio : String)
  | inputAudioBufferClear
deriving Repr, BEq, Inhabited

/-- Caller-bound (media socket) messages the orchestrator sends. -/
inductive TwilioMsg where
  | media (streamSid : Option String) (payload : String)
  | clear (streamSid : String)
deriving Repr, BEq, Inhabited

/-- One observable effect of handling one event.  `delayMs = 0` is an
immediate send; a positive delay is a `setTimeout` of that many
milliseconds, so among the actions of one handler invocation the realized
order is: zero-delay actions in list order, then positive delays in delay
order.  `hangupTimer` is the scheduled call-ending sequence of a successful
`end_call` (at fire time: send the `clear` event and close the media socket,
if the stream is known and the socket still open); `greetingTimer` is the
scheduled greeting sequence of the `start` handler. -/
inductive Action where
  | toOpenAI (delayMs : Nat) (m : OpenAIMsg)
  | toTwilio (delayMs : Nat) (m : TwilioMsg)
  | hangupTimer (delayMs : Nat)
  | greetingTimer (delayMs : Nat)
  | closeOpenAI
  | dbCreateInspection (streamSid : String) (phone : Option String)
  | dbCompleteInspection (streamSid : String)
deriving Repr, BEq, Inhabited

/-- The per-call mutable state captured by the `/media-stream` connection
closure, together with the per-call view of the database: `dbRecord` is this
call's persisted inspection payload, `dbFinalized` whether
`completeInspection` has run for it, `callerNames` the caller-name upserts
performed during the call. -/
structure CallState where
  streamSid : Option String := none
  phoneNumber : Option String := none
  isAIResponding : Bool := false
  inspectionSubmitted : Bool := false
  inspectionData : Option JVal := none
  openAiOpen : Bool := true
  twilioOpen : Bool := true
  dbRecord : Option InspectionData := none
  dbFinalized : Bool := false
  callerNames : List (String × String) := []
deriving Repr, BEq, Inhabited

/-- Inbound media-socket (Twilio) events, at the parsed-JSON level. -/
inductive TwilioEvent where
  | media (payload : String)
  | start (sid : String) (phone : Option String)
  | other (event : String)
deriving Repr, BEq, Inhabited

/-- Inbound backend-socket (OpenAI) events, at the parsed-JSON level. -/
inductive OpenAIEvent where
  | sessionCreated
  | functionCallArgsDone (call_id name args : String)
  | audioStart
  | audioDone
  | audioDelta (delta : Option String)
  | other (event : String)
deriving Repr, BEq, Inhabited

/-- Anything that can happen to one call. -/
inductive CallEvent where
  | fromTwilio (e : TwilioEvent)
  | fromOpenAI (e : OpenAIEvent)
  | twilioClose
  | openAiClose
  | openAiError
deriving Repr, BEq, Inhabited

/-- Apply a handler's database write to the per-call database view.  The
inspection `UPDATE` is keyed on the call's stream id, so it reaches this
call's row exactly when a stream id is known. -/
def applyDbWrite (s : CallState) : DbWrite → CallState
  | .saveInspection sid d =>
    match sid with
    | some _ => { s with dbRecord := some d }
    | none => s
  | .saveCaller p n => { s with callerNames := (p, n) :: s.callerNames }

/-- The dispatch context built from the per-call state
(`src/index.js` lines 549-554). -/
def ctxOf (s : CallState) : ToolContext :=
  { inspectionSubmitted := s.inspectionSubmitted, inspectionData := s.inspectionData,
    streamSid := s.streamSid, phoneNumber := s.phoneNumber }

/-- Placeholder for the environment-specific `SyntaxError` message that
`JSON.parse` attaches; the source wraps it as
`Invalid JSON arguments: <message>`. -/
def invalidJsonMsg : String := "Invalid JSON arguments: JSON.parse failed"

/-- `connection.on('message')` (`src/index.js` lines 637-723): the media
case forwards caller audio to the backend only while the backend socket is
open, first cancelling and scheduling a buffer clear if the AI is speaking;
the start case records the stream id and caller identity, creates the
inspection row and schedules the greeting; other events are ignored. -/
def handleTwilioEvent (s : CallState) : TwilioEvent → CallState × List Action
  | .media payload =>
    if s.openAiOpen then
      if s.isAIResponding then
        ({ s with isAIResponding := false },
         [.toOpenAI 0 .responseCancel,
          .toOpenAI MESSAGE_SEQUENCE_DELAY_MS .inputAudioBufferClear,
          .toOpenAI 0 (.inputAudioBufferAppend payload)])
      else
        (s, [.toOpenAI 0 (.inputAudioBufferAppend payload)])
    else (s, [])
  | .start sid phone =>
    let newPhone := match phone with
      | some p => if p = "" then s.phoneNumber else some p
      | none => s.phoneNumber
    ({ s with streamSid := some sid, phoneNumber := newPhone },
     [.dbCreateInspection sid newPhone, .greetingTimer GREETING_DELAY_OFFSET_MS])
  | .other _ => (s, [])

/-- `openAiWs.on('message')` (`src/index.js` lines 522-634): session
configuration on `session.created`; tool dispatch on
`response.function_call_arguments.done` (argument parse failure and thrown
handler errors take the `catch` path, which sends only the error
`function_call_output`); speaking-state tracking on audio start/done; audio
forwarding on `response.audio.delta`. -/
def handleOpenAIEvent (clients : McpClients) (s : CallState) :
    OpenAIEvent → CallState × List Action
  | .sessionCreated => (s, [.toOpenAI 0 .sessionUpdate])
  | .functionCallArgsDone cid name argsStr =>
    match jsonParse argsStr with
    | none => (s, [.toOpenAI 0 (.functionCallOutput cid (.errorMsg invalidJsonMsg))])
    | some args =>
      match callMCPTool clients name args (ctxOf s) with
      | (.thrown m, _) => (s, [.toOpenAI 0 (.functionCallOutput cid (.errorMsg m))])
      | (.ok r, writes) =>
        let s1 := if name = "submit_inspection_data" ∧ r.success then
            { s with inspectionSubmitted := true, inspectionData := some args }
          else s
        let s2 := writes.foldl applyDbWrite s1
        let tail := if name = "end_call" ∧ r.success then
            [Action.toOpenAI MESSAGE_SEQUENCE_DELAY_MS .responseCreate,
             Action.hangupTimer 3000]
          else
            [Action.toOpenAI MESSAGE_SEQUENCE_DELAY_MS .responseCreate]
        (s2, .toOpenAI 0 (.functionCallOutput cid (.result r)) :: tail)
      | (.external sv tl, _) =>
        (s, [.toOpenAI 0 (.functionCallOutput cid (.externalResult sv tl)),
             .toOpenAI MESSAGE_SEQUENCE_DELAY_MS .responseCreate])
  | .audioStart => ({ s with isAIResponding := true }, [])
  | .audioDone => ({ s with isAIResponding := false }, [])
  | .audioDelta d =>
    match d with
    | some delta => (s, [.toTwilio 0 (.media s.streamSid delta)])
    | none => (s, [])
  | .other _ => (s, [])

/-- One step of the per-call orchestrator: the four socket callbacks of
`src/index.js` lines 462-748.  The media-socket `close` handler closes the
backend socket if still open and finalizes the call record; the backend
socket's `close` and `error` handlers only log. -/
def stepCall (clients : McpClients) (s : CallState) : CallEvent → CallState × List Action
  | .fromTwilio e => handleTwilioEvent s e
  | .fromOpenAI e => handleOpenAIEvent clients s e
  | .twilioClose =>
    ({ s with twilioOpen := false, openAiOpen := false,
              dbFinalized := s.dbFinalized || s.streamSid.isSome },
     (if s.openAiOpen then [Action.closeOpenAI] else []) ++
       (match s.streamSid with
        | some sid => [Action.dbCompleteInspection sid]
        | none => []))
  | .openAiClose => ({ s with openAiOpen := false }, [])
  | .openAiError => (s, [])

/-- Run a sequence of events, concatenating the emitted actions. -/
def runCall (clients : McpClients) : CallState → List CallEvent → CallState × List Action
  | s, [] => (s, [])
  | s, e :: es =>
    let p := stepCall clients s e
    let q := runCall clients p.1 es
    (q.1, p.2 ++ q.2)

/-- Is this action a (possibly delayed) `response.create`? -/
def isResponseCreate : Action → Bool
  | .toOpenAI _ .responseCreate => true
  | _ => false

/-- Is this action part of the call-ending sequence (the scheduled hangup
that sends `clear` and closes the media socket)? -/
def isCallEnding : Action → Bool
  | .hangupTimer _ => true
  | .toTwilio _ (.clear _) => true
  | _ => false

/-- The audio payload this action appends to the backend's input buffer. -/
def appendPayload : Action → Option String
  | .toOpenAI _ (.inputAudioBufferAppend a) => some a
  | _ => none

/-- The audio payload this action sends to the caller. -/
def twilioMediaPayload : Action → Option String
  | .toTwilio _ (.media _ p) => some p
  | _ => none

/-! ## Relay lemmas -/

/-- Handling a caller media frame never changes whether the backend socket
is open. -/
theorem handleTwilio_media_openAiOpen (s : CallState) (p : String) :
    (handleTwilioEvent s (.media p)).1.openAiOpen = s.openAiOpen := by
  cases h1 : s.openAiOpen <;> cases h2 : s.isAIResponding <;>
    simp [handleTwilioEvent, h1, h2]

/-- While the backend socket is open, handling one caller media frame
appends exactly that frame's payload. -/
theorem handleTwilio_media_appends (s : CallState) (p : String)
    (h : s.openAiOpen = true) :
    (handleTwilioEvent s (.media p)).2.filterMap appendPayload = [p] := by
  cases h2 : s.isAIResponding <;> simp [handleTwilioEvent, h, h2, appendPayload]

/-- Across a run of caller media frames (backend socket open), the appended
payloads are exactly the received payloads, in order. -/
theorem run_media_appends (clients : McpClients) :
    ∀ (ps : List String) (s : CallState), s.openAiOpen = true →
      ((runCall clients s
          (ps.map (fun p => CallEvent.fromTwilio (.media p)))).2.filterMap
        appendPayload) = ps := by
  intro ps
  induction ps with
  | nil => intro s _; simp [runCall]
  | cons p rest ih =>
    intro s h
    simp only [List.map_cons, runCall, stepCall]
    rw [List.filterMap_append, handleTwilio_media_appends s p h,
      ih _ (by rw [handleTwilio_media_openAiOpen]; exact h)]
    rfl

/-- Across a run of backend audio deltas, the payloads relayed to the caller
are exactly the received deltas, in order. -/
theorem run_delta_media (clients : McpClients) :
    ∀ (ds : List String) (s : CallState),
      ((runCall clients s
          (ds.map (fun d => CallEvent.fromOpenAI (.audioDelta (some d))))).2.filterMap
        twilioMediaPayload) = ds := by
  intro ds
  induction ds with
  | nil => intro s; simp [runCall]
  | cons d rest ih =>
    intro s
    simp only [List.map_cons, runCall, stepCall, handleOpenAIEvent]
    rw [List.filterMap_append]
    simp [twilioMediaPayload, ih]

/-! ## Claims -/

/-- C10: a caller media frame arriving while the backend socket is not open
is silently dropped — the handler leaves the per-call state unchanged
(nothing is buffered, and no interruption handling runs even when
`is_ai_speaking` is true) and emits no action; conversely a frame is
forwarded (an input-buffer append is emitted) only when the backend socket
is open. -/
theorem C10_closed_backend_drops_media :
    (∀ (s : CallState) (payload : String), s.openAiOpen = false →
      handleTwilioEvent s (.media payload) = (s, [])) ∧
    (∀ (s : CallState) (payload : String) (a : Action),
      a ∈ (handleTwilioEvent s (.media payload)).2 →
      (appendPayload a).isSome = true → s.openAiOpen = true) := by
  constructor
  · intro s payload h
    simp [handleTwilioEvent, h]
  · intro s payload a ha _
    cases hb : s.openAiOpen
    · simp [handleTwilioEvent, hb] at ha
    · rfl

/-- Witness for C10 at a concrete closed-backend state with the AI marked
speaking and a concrete frame. -/
theorem C10_closed_backend_drops_media_witness :
    handleTwilioEvent { openAiOpen := false, isAIResponding := true }
        (.media "QUJD") =
      ({ openAiOpen := false, isAIResponding := true }, []) :=
  C10_closed_backend_drops_media.1 _ "QUJD" rfl

/-- C3: when a caller media frame arrives while the AI is speaking (and the
backend socket is open), the handler emits, in realized order, an immediate
`response.cancel`, an `input_audio_buffer.clear` scheduled after the
configured settle delay `MESSAGE_SEQUENCE_DELAY_MS`, and the immediate
forward of the triggering frame itself; the post-state has
`is_ai_speaking = false`, so the next backend `response.audio.start` is
processed from a non-speaking state. -/
theorem C3_barge_in (s : CallState) (payload : String)
    (hOpen : s.openAiOpen = true) (hSpeak : s.isAIResponding = true) :
    handleTwilioEvent s (.media payload) =
      ({ s with isAIResponding := false },
       [.toOpenAI 0 .responseCancel,
        .toOpenAI MESSAGE_SEQUENCE_DELAY_MS .inputAudioBufferClear,
        .toOpenAI 0 (.inputAudioBufferAppend payload)]) ∧
    Action.toOpenAI 0 (.inputAudioBufferAppend payload) ∈
      (handleTwilioEvent s (.media payload)).2 ∧
    (handleTwilioEvent s (.media payload)).1.isAIResponding = false := by
  refine ⟨?_, ?_, ?_⟩ <;> simp [handleTwilioEvent, hOpen, hSpeak]

/-- Witness for C3 at a concrete speaking state and frame. -/
theorem C3_barge_in_witness :
    handleTwilioEvent { isAIResponding := true } (.media "YWJj") =
      ({ isAIResponding := false },
       [.toOpenAI 0 .responseCancel,
        .toOpenAI MESSAGE_SEQUENCE_DELAY_MS .inputAudioBufferClear,
        .toOpenAI 0 (.inputAudioBufferAppend "YWJj")]) :=
  (C3_barge_in { isAIResponding := true } "YWJj" rfl rfl).1

/-- C4: audio relay is content- and order-preserving in both directions:
one inbound frame is appended to the backend input buffer byte-identically;
one backend delta is relayed to the caller byte-identically; and across any
run of frames in one direction the forwarded payload sequence equals the
received payload sequence. -/
theorem C4_relay_content_order :
    (∀ (s : CallState) (p : String), s.openAiOpen = true →
      Action.toOpenAI 0 (.inputAudioBufferAppend p) ∈
        (handleTwilioEvent s (.media p)).2) ∧
    (∀ (clients : McpClients) (s : CallState) (d : String),
      handleOpenAIEvent clients s (.audioDelta (some d)) =
        (s, [.toTwilio 0 (.media s.streamSid d)])) ∧
    (∀ (clients : McpClients) (s : CallState) (ps : List String),
      s.openAiOpen = true →
      ((runCall clients s
          (ps.map (fun p => CallEvent.fromTwilio (.media p)))).2.filterMap
        appendPayload) = ps) ∧
    (∀ (clients : McpClients) (s : CallState) (ds : List String),
      ((runCall clients s
          (ds.map (fun d => CallEvent.fromOpenAI (.audioDelta (some d))))).2.filterMap
        twilioMediaPayload) = ds) := by
  refine ⟨?_, ?_, ?_, ?_⟩
  · intro s p h
    cases h2 : s.isAIResponding <;> simp [handleTwilioEvent, h, h2]
  · intro clients s d
    rfl
  · intro clients s ps h
    exact run_media_appends clients ps s h
  · intro clients s ds
    exact run_delta_media clients ds s

/-- Witness for C4 on a concrete two-frame run in each direction. -/
theorem C4_relay_content_order_witness :
    ((runCall [] {}
        (["YQ==", "Yg=="].map (fun p => CallEvent.fromTwilio (.media p)))).2.filterMap
      appendPayload) = ["YQ==", "Yg=="] :=
  C4_relay_content_order.2.2.1 [] {} ["YQ==", "Yg=="] rfl

/-- C6: a tool-call event whose argument string is not parseable JSON takes
the `catch` path: the only emitted action is an immediate structured error
result, correlated by the original `call_id` and referencing the parse
failure, the per-call state is unchanged (both sockets keep their status and
relay continues), and no call-ending action is emitted. -/
theorem C6_unparseable_args (clients : McpClients) (s : CallState)
    (cid name argsStr : String) (h : jsonParse argsStr = none) :
    handleOpenAIEvent clients s (.functionCallArgsDone cid name argsStr) =
      (s, [.toOpenAI 0 (.functionCallOutput cid (.errorMsg invalidJsonMsg))]) ∧
    strIncludes invalidJsonMsg "Invalid JSON arguments" = true ∧
    ((handleOpenAIEvent clients s
        (.functionCallArgsDone cid name argsStr)).2.filter isCallEnding) = [] := by
  refine ⟨?_, by rfl, ?_⟩ <;> simp [handleOpenAIEvent, h, isCallEnding]

/-- Witness for C6 at the concrete unparseable argument string consisting of
a lone opening brace. -/
theorem C6_unparseable_args_witness :
    handleOpenAIEvent [] {} (.functionCallArgsDone "call_7" "end_call" "\x7b") =
      (({} : CallState),
       [.toOpenAI 0 (.functionCallOutput "call_7" (.errorMsg invalidJsonMsg))]) :=
  (C6_unparseable_args [] {} "call_7" "end_call" "\x7b" rfl).1

/-! ## Termination gate and submission lemmas -/

/-- Database writes never touch the in-memory submission flag. -/
theorem applyDbWrites_submitted (ws : List DbWrite) :
    ∀ s : CallState, (ws.foldl applyDbWrite s).inspectionSubmitted =
      s.inspectionSubmitted := by
  induction ws with
  | nil => intro s; rfl
  | cons w rest ih =>
    intro s
    rw [List.foldl_cons, ih]
    cases w with
    | saveInspection sid d => cases sid <;> rfl
    | saveCaller p n => rfl

/-- A dispatched `end_call` while not submitted leaves the per-call state
unchanged and emits no call-ending action. -/
theorem endCall_step_unchanged (clients : McpClients) (s : CallState)
    (cid argsStr : String) (h : s.inspectionSubmitted = false) :
    (stepCall clients s
      (.fromOpenAI (.functionCallArgsDone cid "end_call" argsStr))).1 = s ∧
    ((stepCall clients s
      (.fromOpenAI (.functionCallArgsDone cid "end_call" argsStr))).2.filter
        isCallEnding) = [] := by
  cases hp : jsonParse argsStr with
  | none =>
    exact ⟨by simp [stepCall, handleOpenAIEvent, hp],
           by simp [stepCall, handleOpenAIEvent, hp, isCallEnding]⟩
  | some args =>
    constructor <;>
      simp [stepCall, handleOpenAIEvent, hp, callMCPTool, ctxOf, h, isCallEnding]

/-- Any number of `end_call` attempts from a not-submitted state leave the
state unchanged and never emit a call-ending action. -/
theorem endCall_run_unchanged (clients : McpClients) :
    ∀ (attempts : List (String × String)) (s : CallState),
      s.inspectionSubmitted = false →
      (runCall clients s (attempts.map (fun a =>
        CallEvent.fromOpenAI (.functionCallArgsDone a.1 "end_call" a.2)))).1 = s ∧
      ((runCall clients s (attempts.map (fun a =>
        CallEvent.fromOpenAI (.functionCallArgsDone a.1 "end_call" a.2)))).2.filter
          isCallEnding) = [] := by
  intro attempts
  induction attempts with
  | nil => intro s _; exact ⟨rfl, rfl⟩
  | cons a rest ih =>
    intro s h
    obtain ⟨h1, h2⟩ := endCall_step_unchanged clients s a.1 a.2 h
    constructor
    · simp only [List.map_cons, runCall]
      rw [h1]
      exact (ih s h).1
    · simp only [List.map_cons, runCall, List.filter_append]
      rw [h1, h2]
      simp [(ih s h).2]

/-- C1: the `end_call` handler returns a success result iff the submission
flag is set at dispatch; while NOT_SUBMITTED the result is a failure
carrying exactly the gating error, the handler mutates nothing, and no
call-ending action (scheduled hangup, `clear`, socket close) is emitted, no
matter how many attempts are made; while SUBMITTED a dispatched `end_call`
yields a success result and the scheduled call-ending sequence. -/
theorem C1_termination_gate :
    (∀ (clients : McpClients) (args : JVal) (ctx : ToolContext),
      ∃ r : ToolResult,
        callMCPTool clients "end_call" args ctx = (.ok r, []) ∧
        r.success = ctx.inspectionSubmitted ∧
        (ctx.inspectionSubmitted = false →
          r.error = some "Cannot end call without submitting inspection data first")) ∧
    (∀ (clients : McpClients) (attempts : List (String × String)) (s : CallState),
      s.inspectionSubmitted = false →
      (runCall clients s (attempts.map (fun a =>
        CallEvent.fromOpenAI (.functionCallArgsDone a.1 "end_call" a.2)))).1 = s ∧
      ((runCall clients s (attempts.map (fun a =>
        CallEvent.fromOpenAI (.functionCallArgsDone a.1 "end_call" a.2)))).2.filter
          isCallEnding) = []) ∧
    (∀ (clients : McpClients) (s : CallState) (cid argsStr : String) (args : JVal),
      jsonParse argsStr = some args → s.inspectionSubmitted = true →
      ∃ r : ToolResult, r.success = true ∧
        (stepCall clients s
          (.fromOpenAI (.functionCallArgsDone cid "end_call" argsStr))).2 =
          [.toOpenAI 0 (.functionCallOutput cid (.result r)),
           .toOpenAI MESSAGE_SEQUENCE_DELAY_MS .responseCreate,
           .hangupTimer 3000]) := by
  refine ⟨?_, ?_, ?_⟩
  · intro clients args ctx
    cases hsub : ctx.inspectionSubmitted
    · refine ⟨{ success := false,
                error := some "Cannot end call without submitting inspection data first",
                message := some "You must call submit_inspection_data before ending the call" },
        ?_, rfl, fun _ => rfl⟩
      simp [callMCPTool, hsub]
    · refine ⟨{ success := true, message := some "Call will be ended",
                reason := some (match jGetStr args "reason" with
                  | some r => if r = "" then "unknown" else r
                  | none => "unknown") },
        ?_, rfl, by simp⟩
      simp [callMCPTool, hsub]
  · intro clients attempts s h
    exact endCall_run_unchanged clients attempts s h
  · intro clients s cid argsStr args hp h
    refine ⟨{ success := true, message := some "Call will be ended",
              reason := some (match jGetStr args "reason" with
                | some r => if r = "" then "unknown" else r
                | none => "unknown") },
      rfl, ?_⟩
    simp [stepCall, handleOpenAIEvent, hp, callMCPTool, ctxOf, h]

/-- Witness for C1: two concrete denied attempts from a fresh call state,
and one granted attempt from a submitted state. -/
theorem C1_termination_gate_witness :
    ((runCall [] {} ([("c1", "\x7b\"reason\":\"done\"\x7d"),
        ("c2", "\x7b\"reason\":\"again\"\x7d")].map (fun a =>
      CallEvent.fromOpenAI (.functionCallArgsDone a.1 "end_call" a.2)))).1 =
        ({} : CallState)) ∧
    (∃ r : ToolResult, r.success = true ∧
      (stepCall [] { inspectionSubmitted := true }
        (.fromOpenAI (.functionCallArgsDone "c3" "end_call"
          "\x7b\"reason\":\"done\"\x7d"))).2 =
        [.toOpenAI 0 (.functionCallOutput "c3" (.result r)),
         .toOpenAI MESSAGE_SEQUENCE_DELAY_MS .responseCreate,
         .hangupTimer 3000]) :=
  ⟨(C1_termination_gate.2.1 [] [("c1", "\x7b\"reason\":\"done\"\x7d"),
      ("c2", "\x7b\"reason\":\"again\"\x7d")] {} rfl).1,
   C1_termination_gate.2.2 [] { inspectionSubmitted := true } "c3"
     "\x7b\"reason\":\"done\"\x7d" (.obj [("reason", .str "done")]) rfl rfl⟩

/-- The in-memory and persisted effect of one successfully validated
submission step. -/
theorem submit_step_effect (clients : McpClients) (s : CallState)
    (cid argsStr : String) (args : JVal)
    (hp : jsonParse argsStr = some args)
    (hv : (validateInspectionData (toInspectionData args)).valid = true) :
    (stepCall clients s
      (.fromOpenAI (.functionCallArgsDone cid "submit_inspection_data" argsStr))).1 =
      { s with inspectionSubmitted := true, inspectionData := some args,
               dbRecord := if s.streamSid.isSome then some (toInspectionData args)
                 else s.dbRecord } := by
  cases hs : s.streamSid <;>
    simp [stepCall, handleOpenAIEvent, hp, callMCPTool, ctxOf, hv, hs, applyDbWrite]

/-- One orchestrator step never clears the submission flag. -/
theorem step_submitted_mono (clients : McpClients) (s : CallState) (e : CallEvent)
    (h : s.inspectionSubmitted = true) :
    (stepCall clients s e).1.inspectionSubmitted = true := by
  cases e with
  | fromTwilio te =>
    cases te with
    | media p =>
      cases h1 : s.openAiOpen <;> cases h2 : s.isAIResponding <;>
        simp [stepCall, handleTwilioEvent, h1, h2, h]
    | start sid phone => simp [stepCall, handleTwilioEvent, h]
    | other ev => simp [stepCall, handleTwilioEvent, h]
  | fromOpenAI oe =>
    cases oe with
    | functionCallArgsDone cid name argsStr =>
      cases hp : jsonParse argsStr with
      | none => simp [stepCall, handleOpenAIEvent, hp, h]
      | some args =>
        cases hc : callMCPTool clients name args (ctxOf s) with
        | mk outcome writes =>
          cases outcome with
          | ok r =>
            by_cases hn : name = "submit_inspection_data" ∧ r.success = true
            · obtain ⟨hn1, hn2⟩ := hn
              subst hn1
              simp [stepCall, handleOpenAIEvent, hp, hc, hn2, applyDbWrites_submitted]
            · simp [stepCall, handleOpenAIEvent, hp, hc, hn, applyDbWrites_submitted, h]
          | external sv tl => simp [stepCall, handleOpenAIEvent, hp, hc, h]
          | thrown m => simp [stepCall, handleOpenAIEvent, hp, hc, h]
    | sessionCreated => simp [stepCall, handleOpenAIEvent, h]
    | audioStart => simp [stepCall, handleOpenAIEvent, h]
    | audioDone => simp [stepCall, handleOpenAIEvent, h]
    | audioDelta d => cases d <;> simp [stepCall, handleOpenAIEvent, h]
    | other ev => simp [stepCall, handleOpenAIEvent, h]
  | twilioClose => simp [stepCall, h]
  | openAiClose => simp [stepCall, h]
  | openAiError => simp [stepCall, h]

/-- Across any run of events, the submission flag never reverts. -/
theorem run_submitted_mono (clients : McpClients) :
    ∀ (evs : List CallEvent) (s : CallState), s.inspectionSubmitted = true →
      (runCall clients s evs).1.inspectionSubmitted = true := by
  intro evs
  induction evs with
  | nil => intro s h; exact h
  | cons e rest ih =>
    intro s h
    simp only [runCall]
    exact ih _ (step_submitted_mono clients s e h)

/-- C2: submission is idempotent-overwrite and monotonic: one successfully
validated submission sets the flag and stores the parsed payload both in the
call context and (when the stream id is known) in the database row; a second
successful submission replaces the stored payload with the second one; and
no event whatsoever reverts the flag from SUBMITTED. -/
theorem C2_submission_overwrite_monotonic :
    (∀ (clients : McpClients) (s : CallState) (cid argsStr : String) (args : JVal),
      jsonParse argsStr = some args →
      (validateInspectionData (toInspectionData args)).valid = true →
      (stepCall clients s
        (.fromOpenAI (.functionCallArgsDone cid "submit_inspection_data" argsStr))).1 =
        { s with inspectionSubmitted := true, inspectionData := some args,
                 dbRecord := if s.streamSid.isSome then some (toInspectionData args)
                   else s.dbRecord }) ∧
    (∀ (clients : McpClients) (s : CallState) (cid1 cid2 a1 a2 : String)
        (j1 j2 : JVal),
      jsonParse a1 = some j1 → jsonParse a2 = some j2 →
      (validateInspectionData (toInspectionData j1)).valid = true →
      (validateInspectionData (toInspectionData j2)).valid = true →
      s.streamSid.isSome = true →
      (runCall clients s
        [.fromOpenAI (.functionCallArgsDone cid1 "submit_inspection_data" a1),
         .fromOpenAI (.functionCallArgsDone cid2 "submit_inspection_data" a2)]).1 =
        { s with inspectionSubmitted := true, inspectionData := some j2,
                 dbRecord := some (toInspectionData j2) }) ∧
    (∀ (clients : McpClients) (evs : List CallEvent) (s : CallState),
      s.inspectionSubmitted = true →
      (runCall clients s evs).1.inspectionSubmitted = true) := by
  refine ⟨?_, ?_, ?_⟩
  · intro clients s cid argsStr args hp hv
    exact submit_step_effect clients s cid argsStr args hp hv
  · intro clients s cid1 cid2 a1 a2 j1 j2 hp1 hp2 hv1 hv2 hsid
    have h1 := submit_step_effect clients s cid1 a1 j1 hp1 hv1
    simp only [runCall]
    rw [h1]
    have h2 := submit_step_effect clients
      { s with inspectionSubmitted := true, inspectionData := some j1,
               dbRecord := if s.streamSid.isSome then some (toInspectionData j1)
                 else s.dbRecord } cid2 a2 j2 hp2 hv2
    rw [h2]
    simp [hsid]
  · intro clients evs s h
    exact run_submitted_mono clients evs s h

/-- Witness for C2: a concrete double submission overwriting the payload. -/
theorem C2_submission_overwrite_monotonic_witness :
    (runCall [] { streamSid := some "MZ1" }
      [.fromOpenAI (.functionCallArgsDone "c1" "submit_inspection_data"
        "\x7b\"equipment_id\":\"SCAFF-001\",\"inspector_name\":\"Jane\",\"location\":\"Warehouse A - Bay 3\",\"inspection_result\":\"PASS\"\x7d"),
       .fromOpenAI (.functionCallArgsDone "c2" "submit_inspection_data"
        "\x7b\"equipment_id\":\"SCAFF-002\",\"inspector_name\":\"Jane\",\"location\":\"Warehouse A - Bay 5\",\"inspection_result\":\"FAIL\"\x7d")]).1 =
      { streamSid := some "MZ1", inspectionSubmitted := true,
        inspectionData := some (.obj [("equipment_id", .str "SCAFF-002"),
          ("inspector_name", .str "Jane"), ("location", .str "Warehouse A - Bay 5"),
          ("inspection_result", .str "FAIL")]),
        dbRecord := some
          { equipment_id := some "SCAFF-002",
            inspector_name := some "Jane", location := some "Warehouse A - Bay 5",
            inspection_result := some "FAIL" } } := by
  have h := C2_submission_overwrite_monotonic.2.1 [] { streamSid := some "MZ1" }
    "c1" "c2"
    "\x7b\"equipment_id\":\"SCAFF-001\",\"inspector_name\":\"Jane\",\"location\":\"Warehouse A - Bay 3\",\"inspection_result\":\"PASS\"\x7d"
    "\x7b\"equipment_id\":\"SCAFF-002\",\"inspector_name\":\"Jane\",\"location\":\"Warehouse A - Bay 5\",\"inspection_result\":\"FAIL\"\x7d"
    (.obj [("equipment_id", .str "SCAFF-001"), ("inspector_name", .str "Jane"),
      ("location", .str "Warehouse A - Bay 3"), ("inspection_result", .str "PASS")])
    (.obj [("equipment_id", .str "SCAFF-002"), ("inspector_name", .str "Jane"),
      ("location", .str "Warehouse A - Bay 5"), ("inspection_result", .str "FAIL")])
    rfl rfl rfl rfl rfl
  rw [h]
  rfl

/-! ## Tool-dispatch result delivery (C5) -/

/-- C5 counterexample: a tool-call event whose argument string is
unparseable — by the claim this dispatch "produced an error result" and was
not a successful termination, so a `response.create` should follow; but the
`catch` path emits only the error `function_call_output` and requests no new
response. -/
theorem C5_counterexample :
    (handleOpenAIEvent [] {}
        (.functionCallArgsDone "call_9" "get_equipment_info" "\x7b")).2 =
      [.toOpenAI 0 (.functionCallOutput "call_9" (.errorMsg invalidJsonMsg))] ∧
    ((handleOpenAIEvent [] {}
        (.functionCallArgsDone "call_9" "get_equipment_info" "\x7b")).2.filter
      isResponseCreate) = [] :=
  ⟨rfl, rfl⟩

/-- C5 (amended): for every complete tool-call event, a
`function_call_output` correlated by the original `call_id` is emitted in
every path; when the handler returned a result (successful or not) a
`response.create` is scheduled after the settle delay — with a successful
termination additionally scheduling the hangup — and when the handler
returned an external provider's raw result likewise; but when the dispatch
threw (argument parse failure, unknown provider, handler exception) only the
error `function_call_output` is emitted and no new response is requested. -/
theorem C5_result_delivery (clients : McpClients) (s : CallState)
    (cid name argsStr : String) :
    (∃ o : FnOutput, Action.toOpenAI 0 (.functionCallOutput cid o) ∈
      (handleOpenAIEvent clients s (.functionCallArgsDone cid name argsStr)).2) ∧
    (jsonParse argsStr = none →
      (handleOpenAIEvent clients s (.functionCallArgsDone cid name argsStr)).2 =
        [.toOpenAI 0 (.functionCallOutput cid (.errorMsg invalidJsonMsg))]) ∧
    (∀ (args : JVal) (m : String), jsonParse argsStr = some args →
      (callMCPTool clients name args (ctxOf s)).1 = .thrown m →
      (handleOpenAIEvent clients s (.functionCallArgsDone cid name argsStr)).2 =
        [.toOpenAI 0 (.functionCallOutput cid (.errorMsg m))]) ∧
    (∀ (args : JVal) (r : ToolResult), jsonParse argsStr = some args →
      (callMCPTool clients name args (ctxOf s)).1 = .ok r →
      (handleOpenAIEvent clients s (.functionCallArgsDone cid name argsStr)).2 =
        .toOpenAI 0 (.functionCallOutput cid (.result r)) ::
          (if name = "end_call" ∧ r.success = true then
            [Action.toOpenAI MESSAGE_SEQUENCE_DELAY_MS .responseCreate,
             Action.hangupTimer 3000]
          else [Action.toOpenAI MESSAGE_SEQUENCE_DELAY_MS .responseCreate])) ∧
    (∀ (args : JVal) (sv tl : String), jsonParse argsStr = some args →
      (callMCPTool clients name args (ctxOf s)).1 = .external sv tl →
      (handleOpenAIEvent clients s (.functionCallArgsDone cid name argsStr)).2 =
        [.toOpenAI 0 (.functionCallOutput cid (.externalResult sv tl)),
         .toOpenAI MESSAGE_SEQUENCE_DELAY_MS .responseCreate]) := by
  refine ⟨?_, ?_, ?_, ?_, ?_⟩
  · cases hp : jsonParse argsStr with
    | none => exact ⟨.errorMsg invalidJsonMsg, by simp [handleOpenAIEvent, hp]⟩
    | some args =>
      rcases hc : callMCPTool clients name args (ctxOf s) with ⟨outcome, writes⟩
      cases outcome with
      | ok r => exact ⟨.result r, by simp [handleOpenAIEvent, hp, hc]⟩
      | external sv tl =>
        exact ⟨.externalResult sv tl, by simp [handleOpenAIEvent, hp, hc]⟩
      | thrown m => exact ⟨.errorMsg m, by simp [handleOpenAIEvent, hp, hc]⟩
  · intro hp
    simp [handleOpenAIEvent, hp]
  · intro args m hp h1
    rcases hc : callMCPTool clients name args (ctxOf s) with ⟨outcome, writes⟩
    rw [hc] at h1
    simp only at h1
    subst h1
    simp [handleOpenAIEvent, hp, hc]
  · intro args r hp h1
    rcases hc : callMCPTool clients name args (ctxOf s) with ⟨outcome, writes⟩
    rw [hc] at h1
    simp only at h1
    subst h1
    by_cases hn : name = "end_call" ∧ r.success = true
    · obtain ⟨hn1, hn2⟩ := hn
      subst hn1
      simp [handleOpenAIEvent, hp, hc, hn2]
    · simp [handleOpenAIEvent, hp, hc, hn]
  · intro args sv tl hp h1
    rcases hc : callMCPTool clients name args (ctxOf s) with ⟨outcome, writes⟩
    rw [hc] at h1
    simp only at h1
    subst h1
    simp [handleOpenAIEvent, hp, hc]

/-- Witness for C5 (amended) at a concrete denied `end_call`: the failure
result is delivered and a `response.create` still follows. -/
theorem C5_result_delivery_witness :
    (handleOpenAIEvent [] {}
        (.functionCallArgsDone "c8" "end_call" "\x7b\"reason\":\"done\"\x7d")).2 =
      .toOpenAI 0 (.functionCallOutput "c8" (.result
        { success := false,
          error := some "Cannot end call without submitting inspection data first",
          message := some "You must call submit_inspection_data before ending the call" })) ::
        (if ("end_call" : String) = "end_call" ∧ false = true then
          [Action.toOpenAI MESSAGE_SEQUENCE_DELAY_MS .responseCreate,
           Action.hangupTimer 3000]
        else [Action.toOpenAI MESSAGE_SEQUENCE_DELAY_MS .responseCreate]) :=
  (C5_result_delivery [] {} "c8" "end_call" "\x7b\"reason\":\"done\"\x7d").2.2.2.1
    (.obj [("reason", .str "done")])
    { success := false,
      error := some "Cannot end call without submitting inspection data first",
      message := some "You must call submit_inspection_data before ending the call" }
    rfl rfl

/-! ## Submission validation (C7) -/

/-- The equipment-id segment is empty iff the field is non-blank and
resolves in the registry. -/
theorem equipmentIdErrors_eq_nil (d : InspectionData) :
    equipmentIdErrors d = [] ↔
      (fieldBlank d.equipment_id = false ∧
       (getEquipmentById (d.equipment_id.getD "")).isSome = true) := by
  cases hb : fieldBlank d.equipment_id <;>
    cases he : getEquipmentById (d.equipment_id.getD "") <;>
      simp [equipmentIdErrors, hb, he]

/-- The inspector-name segment is empty iff the field is non-blank. -/
theorem inspectorNameErrors_eq_nil (d : InspectionData) :
    inspectorNameErrors d = [] ↔ fieldBlank d.inspector_name = false := by
  cases hb : fieldBlank d.inspector_name <;> simp [inspectorNameErrors, hb]

/-- The location segment is empty iff the field is non-blank. -/
theorem locationErrors_eq_nil (d : InspectionData) :
    locationErrors d = [] ↔ fieldBlank d.location = false := by
  cases hb : fieldBlank d.location <;> simp [locationErrors, hb]

/-- The inspection-result segment is empty iff the field is exactly PASS or
FAIL. -/
theorem inspectionResultErrors_eq_nil (d : InspectionData) :
    inspectionResultErrors d = [] ↔
      (d.inspection_result = some "PASS" ∨ d.inspection_result = some "FAIL") := by
  rcases hr : d.inspection_result with _ | r
  · simp [inspectionResultErrors, hr]
  · by_cases h0 : r = ""
    · subst h0; simp [inspectionResultErrors, hr]
    · by_cases hP : r = "PASS"
      · subst hP; simp [inspectionResultErrors, hr]
      · by_cases hF : r = "FAIL"
        · subst hF; simp [inspectionResultErrors, hr]
        · simp [inspectionResultErrors, hr, h0, hP, hF]

/-- `valid` holds iff all four checks pass. -/
theorem validateInspectionData_valid_iff (d : InspectionData) :
    (validateInspectionData d).valid = true ↔
      (fieldBlank d.equipment_id = false ∧
       (getEquipmentById (d.equipment_id.getD "")).isSome = true ∧
       fieldBlank d.inspector_name = false ∧
       fieldBlank d.location = false ∧
       (d.inspection_result = some "PASS" ∨ d.inspection_result = some "FAIL")) := by
  simp only [validateInspectionData, List.isEmpty_iff, List.append_eq_nil]
  rw [equipmentIdErrors_eq_nil, inspectorNameErrors_eq_nil, locationErrors_eq_nil,
    inspectionResultErrors_eq_nil]
  tauto

/-- Each failed check contributes exactly one collected error. -/
theorem equipmentIdErrors_length (d : InspectionData) :
    (equipmentIdErrors d).length =
      if fieldBlank d.equipment_id = false ∧
          (getEquipmentById (d.equipment_id.getD "")).isSome = true
      then 0 else 1 := by
  cases hb : fieldBlank d.equipment_id <;>
    cases he : getEquipmentById (d.equipment_id.getD "") <;>
      simp [equipmentIdErrors, hb, he]

/-- The inspection-result segment has exactly one error when the check
fails. -/
theorem inspectionResultErrors_length (d : InspectionData) :
    (inspectionResultErrors d).length =
      if d.inspection_result = some "PASS" ∨ d.inspection_result = some "FAIL"
      then 0 else 1 := by
  rcases hr : d.inspection_result with _ | r
  · simp [inspectionResultErrors, hr]
  · by_cases h0 : r = ""
    · subst h0; simp [inspectionResultErrors, hr]
    · by_cases hP : r = "PASS"
      · subst hP; simp [inspectionResultErrors, hr]
      · by_cases hF : r = "FAIL"
        · subst hF; simp [inspectionResultErrors, hr]
        · simp [inspectionResultErrors, hr, h0, hP, hF]

/-- The concrete submission payload of the C7 counterexample: a resolvable
equipment id, a whitespace-only (hence non-empty) inspector name, a
non-empty location, and result PASS. -/
def c7Args : JVal :=
  .obj [("equipment_id", .str "SCAFF-001"), ("inspector_name", .str " "),
        ("location", .str "Warehouse A - Bay 3"), ("inspection_result", .str "PASS")]

/-- The argument string whose parse is `c7Args`. -/
def c7ArgsStr : String :=
  "\x7b\"equipment_id\":\"SCAFF-001\",\"inspector_name\":\" \",\"location\":\"Warehouse A - Bay 3\",\"inspection_result\":\"PASS\"\x7d"

/-- C7 counterexample: at `c7Args` every condition of the claim's iff holds
(all fields non-empty, equipment id resolves, result is PASS), yet the
handler fails validation: the code requires fields non-blank after trimming,
so the whitespace-only inspector name is rejected. -/
theorem C7_counterexample :
    ((" " : String) ≠ "") ∧
    (getEquipmentById "SCAFF-001").isSome = true ∧
    (toInspectionData c7Args).inspector_name = some " " ∧
    (callMCPTool [] "submit_inspection_data" c7Args { inspectionSubmitted := false }).1 =
      .ok { success := false, error := some "Validation failed",
            details := some ["inspector_name is required"],
            message := some "Please provide all required fields: inspector_name is required" } :=
  ⟨by decide, rfl, rfl, rfl⟩

/-- C7 (amended): submission succeeds iff equipment id is non-blank and
resolves in the registry, inspector name and location are non-blank
(non-empty after trimming whitespace), and the result is exactly PASS or
FAIL; on success the payload is persisted (keyed by the call's stream id)
and echoed in the result; on failure the result carries the aggregated
validation errors — exactly one per failed check — no write is performed,
and the orchestrator state is unchanged; a successfully validated submission
sets the flag and stores the payload. -/
theorem C7_submission_validation :
    (∀ (clients : McpClients) (args : JVal) (ctx : ToolContext),
      ∃ r : ToolResult,
        (callMCPTool clients "submit_inspection_data" args ctx).1 = .ok r ∧
        (r.success = true ↔
          (fieldBlank (toInspectionData args).equipment_id = false ∧
           (getEquipmentById ((toInspectionData args).equipment_id.getD "")).isSome = true ∧
           fieldBlank (toInspectionData args).inspector_name = false ∧
           fieldBlank (toInspectionData args).location = false ∧
           ((toInspectionData args).inspection_result = some "PASS" ∨
            (toInspectionData args).inspection_result = some "FAIL"))) ∧
        (r.success = true →
          (callMCPTool clients "submit_inspection_data" args ctx).2 =
            [.saveInspection ctx.streamSid (toInspectionData args)] ∧
          r.data_ = some (toInspectionData args)) ∧
        (r.success = false →
          r.details = some (validateInspectionData (toInspectionData args)).errors ∧
          (callMCPTool clients "submit_inspection_data" args ctx).2 = [])) ∧
    (∀ d : InspectionData,
      (validateInspectionData d).errors.length =
        (if fieldBlank d.equipment_id = false ∧
            (getEquipmentById (d.equipment_id.getD "")).isSome = true then 0 else 1) +
        ((if fieldBlank d.inspector_name = false then 0 else 1) +
         ((if fieldBlank d.location = false then 0 else 1) +
          (if d.inspection_result = some "PASS" ∨ d.inspection_result = some "FAIL"
           then 0 else 1)))) ∧
    (∀ (clients : McpClients) (s : CallState) (cid argsStr : String) (args : JVal),
      jsonParse argsStr = some args →
      (validateInspectionData (toInspectionData args)).valid = false →
      (stepCall clients s
        (.fromOpenAI (.functionCallArgsDone cid "submit_inspection_data" argsStr))).1 = s) ∧
    (∀ (clients : McpClients) (s : CallState) (cid argsStr : String) (args : JVal),
      jsonParse argsStr = some args →
      (validateInspectionData (toInspectionData args)).valid = true →
      (stepCall clients s
        (.fromOpenAI (.functionCallArgsDone cid "submit_inspection_data" argsStr))).1 =
        { s with inspectionSubmitted := true, inspectionData := some args,
                 dbRecord := if s.streamSid.isSome then some (toInspectionData args)
                   else s.dbRecord }) := by
  refine ⟨?_, ?_, ?_, ?_⟩
  · intro clients args ctx
    by_cases hv : (validateInspectionData (toInspectionData args)).valid = true
    · refine ⟨{ success := true,
                message := some "Inspection data successfully recorded",
                data_ := some (toInspectionData args) },
        by simp [callMCPTool, hv],
        iff_of_true rfl ((validateInspectionData_valid_iff _).mp hv),
        fun _ => ⟨by simp [callMCPTool, hv], rfl⟩,
        fun h => by simp at h⟩
    · have hvf : (validateInspectionData (toInspectionData args)).valid = false := by
        revert hv; cases (validateInspectionData (toInspectionData args)).valid <;> simp
      refine ⟨{ success := false, error := some "Validation failed",
                details := some (validateInspectionData (toInspectionData args)).errors,
                message := some ("Please provide all required fields: " ++
                  String.intercalate ", "
                    (validateInspectionData (toInspectionData args)).errors) },
        by simp [callMCPTool, hvf],
        iff_of_false (by simp)
          (fun hc => hv ((validateInspectionData_valid_iff _).mpr hc)),
        fun h => by simp at h,
        fun _ => ⟨rfl, by simp [callMCPTool, hvf]⟩⟩
  · intro d
    show (equipmentIdErrors d ++ inspectorNameErrors d ++ locationErrors d ++
      inspectionResultErrors d).length = _
    rw [List.length_append, List.length_append, List.length_append,
      equipmentIdErrors_length, inspectionResultErrors_length]
    have h2 : (inspectorNameErrors d).length =
        if fieldBlank d.inspector_name = false then 0 else 1 := by
      cases hb : fieldBlank d.inspector_name <;> simp [inspectorNameErrors, hb]
    have h3 : (locationErrors d).length =
        if fieldBlank d.location = false then 0 else 1 := by
      cases hb : fieldBlank d.location <;> simp [locationErrors, hb]
    rw [h2, h3]
    ring
  · intro clients s cid argsStr args hp hvf
    simp [stepCall, handleOpenAIEvent, hp, callMCPTool, ctxOf, hvf]
  · intro clients s cid argsStr args hp hv
    exact submit_step_effect clients s cid argsStr args hp hv

/-- Witness for C7 (amended): the failed-validation step at the concrete
counterexample payload leaves a concrete state untouched. -/
theorem C7_submission_validation_witness :
    (stepCall [] { streamSid := some "MZ1" }
      (.fromOpenAI (.functionCallArgsDone "c4" "submit_inspection_data" c7ArgsStr))).1 =
      { streamSid := some "MZ1" } :=
  C7_submission_validation.2.2.1 [] { streamSid := some "MZ1" } "c4" c7ArgsStr
    c7Args rfl rfl

/-! ## Socket closure (C8) -/

/-- A call state with both sockets open, a known stream, and the record not
yet finalized. -/
def c8State : CallState := { streamSid := some "MZ1" }

/-- C8 counterexample: in `c8State` (both sockets open, stream known) an
abrupt closure of the AI backend socket emits no action at all — in
particular it does not close the still-open media socket and does not
finalize the call record — refuting the claim for the backend side. -/
theorem C8_counterexample :
    c8State.twilioOpen = true ∧ c8State.openAiOpen = true ∧
    stepCall [] c8State .openAiClose = ({ c8State with openAiOpen := false }, []) ∧
    (stepCall [] c8State .openAiClose).1.twilioOpen = true ∧
    (stepCall [] c8State .openAiClose).1.dbFinalized = false :=
  ⟨rfl, rfl, rfl, rfl, rfl⟩

/-- C8 (amended): closure of the media socket transitions the call to
Closed — both sockets are down afterwards, the backend socket is actively
closed if it was still open, and the call record is finalized when the
stream id is known; closure or error of the backend socket, however, is only
logged: it marks the backend socket closed (respectively changes nothing)
but emits no action, leaves the media socket as it was, and does not
finalize the record. -/
theorem C8_socket_closure (clients : McpClients) (s : CallState) :
    ((stepCall clients s .twilioClose).1.twilioOpen = false ∧
     (stepCall clients s .twilioClose).1.openAiOpen = false) ∧
    (s.openAiOpen = true →
      Action.closeOpenAI ∈ (stepCall clients s .twilioClose).2) ∧
    (∀ sid : String, s.streamSid = some sid →
      Action.dbCompleteInspection sid ∈ (stepCall clients s .twilioClose).2 ∧
      (stepCall clients s .twilioClose).1.dbFinalized = true) ∧
    ((stepCall clients s .openAiClose).1 = { s with openAiOpen := false } ∧
     (stepCall clients s .openAiClose).2 = []) ∧
    (stepCall clients s .openAiError = (s, [])) := by
  refine ⟨⟨rfl, rfl⟩, ?_, ?_, ⟨rfl, rfl⟩, rfl⟩
  · intro h
    simp [stepCall, h]
  · intro sid hs
    constructor
    · cases ho : s.openAiOpen <;> simp [stepCall, hs, ho]
    · simp [stepCall, hs]

/-- Witness for C8 (amended): closing the media socket at a concrete state
closes the backend socket and finalizes the concrete stream's record. -/
theorem C8_socket_closure_witness :
    Action.closeOpenAI ∈ (stepCall [] c8State .twilioClose).2 ∧
    Action.dbCompleteInspection "MZ1" ∈ (stepCall [] c8State .twilioClose).2 :=
  ⟨(C8_socket_closure [] c8State).2.1 rfl,
   ((C8_socket_closure [] c8State).2.2.1 "MZ1" rfl).1⟩

/-! ## Tool-name qualification (C9) -/

/-- The five built-in tool names, in the order `callMCPTool` checks them. -/
def builtinToolNames : List String :=
  ["save_caller_name", "get_equipment_info", "search_equipment_by_location",
   "submit_inspection_data", "end_call"]

/-- A provider map whose single provider has an underscore in its name. -/
def c9Clients : McpClients := [("foo_bar", ["baz"])]

/-- C9 counterexample: the provider `foo_bar` advertises its tool `baz` as
`foo_bar_baz`, but dispatching that very name splits at the FIRST
underscore, looks up the non-existent provider `foo`, and throws — the
invocation is not routed back to `foo_bar` with tool name `baz`. -/
theorem C9_counterexample :
    "foo_bar_baz" ∈ getMCPToolNames c9Clients ∧
    (callMCPTool c9Clients "foo_bar_baz" (.obj [])
        { inspectionSubmitted := false }).1 =
      .thrown "MCP server 'foo' not found" := by
  exact ⟨by simp [getMCPToolNames, c9Clients], rfl⟩

/-- `splitCharsOn` never returns the empty list of pieces. -/
theorem splitCharsOn_ne_nil (c : Char) (l : List Char) : splitCharsOn c l ≠ [] := by
  cases l with
  | nil => simp [splitCharsOn]
  | cons x xs =>
    simp only [splitCharsOn]
    rcases h : splitCharsOn c xs with _ | ⟨hh, tt⟩
    · simp
    · by_cases hx : x = c <;> simp [hx]

/-- Joining with the separator inverts splitting on it. -/
theorem joinWith_splitCharsOn (c : Char) :
    ∀ l : List Char, joinWith c (splitCharsOn c l) = l := by
  intro l
  induction l with
  | nil => rfl
  | cons x xs ih =>
    rcases h : splitCharsOn c xs with _ | ⟨hh, tt⟩
    · exact absurd h (splitCharsOn_ne_nil c xs)
    · rw [h] at ih
      by_cases hx : x = c
      · subst hx
        simp only [splitCharsOn, h, if_pos rfl, joinWith, List.nil_append]
        exact congrArg _ ih
      · simp only [splitCharsOn, h, if_neg hx]
        cases tt with
        | nil => simpa [joinWith] using ih
        | cons t1 t2 => simpa [joinWith] using ih

/-- Splitting a string of the form `prefix ++ sep ++ rest`, with the
separator absent from the prefix, peels off the prefix as the first piece. -/
theorem splitCharsOn_prefix_piece (c : Char) (pre suf : List Char)
    (h : c ∉ pre) :
    splitCharsOn c (pre ++ c :: suf) = pre :: splitCharsOn c suf := by
  induction pre with
  | nil =>
    simp only [List.nil_append, splitCharsOn]
    rcases hs : splitCharsOn c suf with _ | ⟨hh, tt⟩
    · exact absurd hs (splitCharsOn_ne_nil c suf)
    · simp
  | cons a pre' ih =>
    have ha : a ≠ c := fun e => h (e ▸ List.mem_cons_self a pre')
    have h' : c ∉ pre' := fun m => h (List.mem_cons_of_mem a m)
    show splitCharsOn c (a :: (pre' ++ c :: suf)) = (a :: pre') :: splitCharsOn c suf
    simp only [splitCharsOn]
    rw [ih h']
    simp [ha]

/-- Splitting a qualified name at underscores peels off an underscore-free
provider prefix. -/
theorem splitUnderscore_qualified (sv t : String) (h : '_' ∉ sv.data) :
    splitUnderscore (sv ++ "_" ++ t) = sv :: splitUnderscore t := by
  unfold splitUnderscore
  have hd : (sv ++ "_" ++ t).data = sv.data ++ '_' :: t.data := by
    simp [String.data_append]
  rw [hd, splitCharsOn_prefix_piece '_' sv.data t.data h]
  rfl

/-- Rejoining the pieces of a split name restores it. -/
theorem joinUnderscore_splitUnderscore (t : String) :
    joinUnderscore (splitUnderscore t) = t := by
  unfold joinUnderscore splitUnderscore
  rw [List.map_map]
  have h1 : String.data ∘ String.mk = id := by
    funext l; rfl
  rw [h1, List.map_id, joinWith_splitCharsOn]

/-- C9 (amended): every provider tool is advertised under its
provider-prefixed name; when the provider identifier contains no underscore
and the qualified name does not collide with a built-in tool name,
dispatching the advertised name routes back to that provider with the
provider's original tool name; a qualified name whose first underscore-piece
matches no connected provider makes the dispatch throw, which the
orchestrator catches and converts into an error `function_call_output` —
the state is unchanged and the call is not terminated. -/
theorem C9_qualification_roundtrip :
    (∀ (clients : McpClients) (sv : String) (ts : List String) (t : String),
      (sv, ts) ∈ clients → t ∈ ts →
      (sv ++ "_" ++ t) ∈ getMCPToolNames clients) ∧
    (∀ (clients : McpClients) (sv t : String) (ts : List String) (args : JVal)
        (ctx : ToolContext),
      mcpLookup clients sv = some ts →
      '_' ∉ sv.data →
      (sv ++ "_" ++ t) ∉ builtinToolNames →
      callMCPTool clients (sv ++ "_" ++ t) args ctx = (.external sv t, [])) ∧
    (∀ (clients : McpClients) (s : CallState) (cid name argsStr : String)
        (args : JVal) (hd : String) (tl : List String),
      jsonParse argsStr = some args →
      name ∉ builtinToolNames →
      splitUnderscore name = hd :: tl →
      mcpLookup clients hd = none →
      handleOpenAIEvent clients s (.functionCallArgsDone cid name argsStr) =
        (s, [.toOpenAI 0 (.functionCallOutput cid
          (.errorMsg ("MCP server '" ++ hd ++ "' not found")))])) := by
  refine ⟨?_, ?_, ?_⟩
  · intro clients sv ts t hm ht
    unfold getMCPToolNames
    apply List.mem_append_left
    simp only [List.mem_flatten, List.mem_map]
    exact ⟨_, ⟨(sv, ts), hm, rfl⟩, List.mem_map_of_mem _ ht⟩
  · intro clients sv t ts args ctx hlk hund hb
    simp only [builtinToolNames, List.mem_cons, List.not_mem_nil, or_false,
      not_or] at hb
    obtain ⟨h1, h2, h3, h4, h5⟩ := hb
    simp only [callMCPTool, if_neg h1, if_neg h2, if_neg h3, if_neg h4, if_neg h5,
      splitUnderscore_qualified sv t hund, joinUnderscore_splitUnderscore, hlk]
  · intro clients s cid name argsStr args hd tl hp hb hsplit hlk
    simp only [builtinToolNames, List.mem_cons, List.not_mem_nil, or_false,
      not_or] at hb
    obtain ⟨h1, h2, h3, h4, h5⟩ := hb
    simp [handleOpenAIEvent, hp, callMCPTool, if_neg h1, if_neg h2, if_neg h3,
      if_neg h4, if_neg h5, hsplit, hlk]

/-- Witness for C9 (amended): a concrete underscore-free provider whose
advertised tool name round-trips, and a concrete unknown prefix whose
dispatch yields the caught error output. -/
theorem C9_qualification_roundtrip_witness :
    callMCPTool [("weather", ["get_forecast"])] ("weather" ++ "_" ++ "get_forecast")
        (.obj []) { inspectionSubmitted := false } =
      (.external "weather" "get_forecast", []) ∧
    handleOpenAIEvent [] {} (.functionCallArgsDone "c6" "nosuch_tool" "\x7b\x7d") =
      (({} : CallState), [.toOpenAI 0 (.functionCallOutput "c6"
        (.errorMsg ("MCP server '" ++ "nosuch" ++ "' not found")))]) :=
  ⟨C9_qualification_roundtrip.2.1 [("weather", ["get_forecast"])] "weather"
      "get_forecast" ["get_forecast"] (.obj []) { inspectionSubmitted := false }
      rfl (by decide) (by decide),
   C9_qualification_roundtrip.2.2 [] {} "c6" "nosuch_tool" "\x7b\x7d" (.obj [])
      "nosuch" ["tool"] rfl (by decide) rfl rfl⟩

end AIRealtime
